import Mathlib

/-!
Shallow embedding of src/netlify/functions/submit-form.js.

JavaScript values appearing in a parsed JSON form submission are modelled by
`JValue` (strings, numbers, booleans, null); JSON numbers are modelled as
integers, which covers every value the claims mention.  A parsed object is an
association list with unique keys (JSON.parse deduplicates keys), looked up by
first match.  JSON.parse itself is modelled by its outcome: `none` for a parse
error, otherwise a `JSBody`.  Exceptions thrown by the handler are modelled by
`Except String`: a `.error` result is an uncaught exception escaping the
handler.  The per-form onSuccess capability is a parameter `act`; `act id d`
returns `none` when the capability succeeds and `some e` when it throws or
rejects with cause `e`.  The invocation of the capability is observed in the
handler result as the `Option` component carrying the argument it was called
with.
-/

inductive JValue where
  | str (s : String)
  | num (n : Int)
  | bool (b : Bool)
  | null
deriving DecidableEq, Repr

/-- JavaScript whitespace class, as matched by the regex class backslash-s and
trimmed by String.prototype.trim. -/
def jsSpace (c : Char) : Bool :=
  c == ' ' || c == '\t' || c == '\n' || c == '\r' || c == '\x0b' || c == '\x0c' ||
  c == ' ' || c == ' ' || c == ' ' || c == ' ' || c == ' ' ||
  c == ' ' || c == ' ' || c == ' ' || c == ' ' || c == ' ' ||
  c == ' ' || c == ' ' || c == ' ' || c == ' ' || c == ' ' ||
  c == ' ' || c == ' ' || c == '　' || c == '﻿'

/-- JavaScript String.prototype.trim: strip jsSpace characters from both ends. -/
def jsTrim (s : String) : String :=
  ⟨((s.data.dropWhile jsSpace).reverse.dropWhile jsSpace).reverse⟩

/-- JavaScript truthiness of a defined value. -/
def jsTruthy : JValue → Bool
  | JValue.str s => s != ""
  | JValue.num n => n != 0
  | JValue.bool b => b
  | JValue.null => false

/-- JavaScript truthiness of a possibly-undefined value (undefined is falsy). -/
def jsTruthyO : Option JValue → Bool
  | none => false
  | some v => jsTruthy v

/-- JavaScript String() coercion of a defined value. -/
def jsToString : JValue → String
  | JValue.str s => s
  | JValue.num n => toString n
  | JValue.bool true => "true"
  | JValue.bool false => "false"
  | JValue.null => "null"

/-- JavaScript parseInt(s, 10): skip leading whitespace, optional sign, then the
longest digit run; no digits means NaN, modelled as `none`. -/
def jsParseInt (s : String) : Option Int :=
  let l := s.data.dropWhile jsSpace
  let signAndRest : Int × List Char :=
    match l with
    | '-' :: t => (-1, t)
    | '+' :: t => (1, t)
    | _ => (1, l)
  let digits := signAndRest.2.takeWhile Char.isDigit
  if digits.isEmpty then none
  else some (signAndRest.1 *
    (digits.foldl (fun acc c => acc * 10 + (c.toNat - Char.toNat '0')) 0 : Nat))

/-- Property read data[k] on a parsed JSON object: `none` is undefined. -/
def getProp : List (String × JValue) → String → Option JValue
  | [], _ => none
  | kv :: t, k => if kv.1 == k then some kv.2 else getProp t k

/-- Whether a key is present in a parsed JSON object. -/
def hasKey : List (String × JValue) → String → Bool
  | [], _ => false
  | kv :: t, k => kv.1 == k || hasKey t k

/-- Property write data[k] = v: update the value in place when the key exists
(JavaScript keeps insertion order), otherwise append the new key. -/
def setProp (data : List (String × JValue)) (k : String) (v : JValue) :
    List (String × JValue) :=
  if hasKey data k then
    data.map (fun kv => if kv.1 == k then (k, v) else kv)
  else
    data ++ [(k, v)]

/-!
Field validators (the validators table of the source).

The email regex is anchored and built from the class of characters that are
neither whitespace nor the at sign; the whole string matches exactly when it
has no whitespace, exactly one at sign, a nonempty local part, and a dot in the
domain part that is neither its first nor its last character (the segments
around that dot are nonempty and automatically inside the class).

The phone regex is anchored and matches exactly when the string has length 7
to 20 and every character is a digit, whitespace, hyphen, plus, or parenthesis.
regex test coerces a non-string argument with String().
-/

def emailTest (s : String) : Bool :=
  let l := s.data
  l.all (fun c => !(jsSpace c)) &&
  (match l.splitOn '@' with
   | [local_, domain] =>
      !local_.isEmpty && ((domain.drop 1).dropLast.contains '.')
   | _ => false)

def phoneTest (s : String) : Bool :=
  7 ≤ s.data.length && s.data.length ≤ 20 &&
  s.data.all (fun c => c.isDigit || jsSpace c || c == '-' || c == '+' ||
    c == '(' || c == ')')

def emailValidator (v : JValue) : Option String :=
  if emailTest (jsToString v) then none else some "Invalid email format"

def phoneValidator (v : JValue) : Option String :=
  if !(jsTruthy v) then none
  else if phoneTest (jsToString v) then none
  else some "Invalid phone format"

/-- validateField of the source: dispatch on the validators table, whose only
keys are email and phone; any other field is valid by default. -/
def validateField (field : String) (v : JValue) : Option String :=
  if field == "email" then emailValidator v
  else if field == "phone" then phoneValidator v
  else none

/-- The missing-field condition of the source on a present value:
not data[field], or data[field] is a string whose trim is falsy. -/
def jsMissingCond (v : JValue) : Bool :=
  !(jsTruthy v) || (match v with
                    | JValue.str s => jsTrim s == ""
                    | _ => false)

/-- Loop body of validateRequiredFields: the messages one required field
contributes. -/
def fieldCheck (data : List (String × JValue)) (field : String) : List String :=
  match getProp data field with
  | none => ["Missing required field: " ++ field]
  | some v =>
    if jsMissingCond v then
      ["Missing required field: " ++ field]
    else
      match validateField field v with
      | some e => [field ++ ": " ++ e]
      | none => []

/-- validateRequiredFields of the source: iterate the required fields in
declared order, pushing each contributed message. -/
def validateRequiredFields (data : List (String × JValue))
    (requiredFields : List String) : List String :=
  requiredFields.foldl (fun errors field => errors ++ fieldCheck data field) []

/-!
Security helpers.
-/

/-- checkHoneypot of the source.  The condition data._honey and
data._honey.trim() not equal to the empty string short-circuits on a falsy
honeypot value; on a truthy non-string value the trim() call throws a
TypeError, modelled as `.error`. -/
def checkHoneypot (data : List (String × JValue)) : Except String Bool :=
  match getProp data "_honey" with
  | none => Except.ok true
  | some v =>
    if !(jsTruthy v) then Except.ok true
    else
      match v with
      | JValue.str s => Except.ok (!(jsTrim s != ""))
      | _ => Except.error "TypeError: data._honey.trim is not a function"

/-- checkTimestamp of the source.  parseInt coerces its argument with String();
a NaN result makes Date.now() minus NaN equal NaN, and NaN < 2000 is false, so
the check passes. -/
def checkTimestamp (now : Int) (data : List (String × JValue)) : Bool :=
  match getProp data "_timestamp" with
  | none => true
  | some v =>
    if !(jsTruthy v) then true
    else
      match jsParseInt (jsToString v) with
      | none => true
      | some t => if now - t < 2000 then false else true

/-!
Sanitizer.  The source chains four global character replacements; each is a
flat-map over the characters of the string.
-/

/-- Global replacement of one character by a string, at the character-list
level: the model of String.prototype.replace with a global single-character
pattern. -/
def replL (c : Char) (r : List Char) (l : List Char) : List Char :=
  l.flatMap (fun ch => if ch == c then r else [ch])

def quoteChar : Char := Char.ofNat 34

def apostropheChar : Char := Char.ofNat 39

/-- The four chained replacements of sanitizeInput, on character lists. -/
def sanitizeL (l : List Char) : List Char :=
  replL apostropheChar "&#x27;".data
    (replL quoteChar "&quot;".data
      (replL '>' "&gt;".data
        (replL '<' "&lt;".data l)))

/-- sanitizeInput of the source: non-strings pass through unchanged; strings
get the four chained global replacements. -/
def sanitizeInput (v : JValue) : JValue :=
  match v with
  | JValue.str s => JValue.str ⟨sanitizeL s.data⟩
  | _ => v

/-- key.startsWith("_"): the key begins with the underscore sentinel. -/
def isControlKey (k : String) : Bool :=
  match k.data with
  | c :: _ => c == '_'
  | [] => false

/-- sanitizeData of the source: drop keys starting with an underscore and
sanitize every remaining value. -/
def sanitizeData (data : List (String × JValue)) : List (String × JValue) :=
  (data.filter (fun kv => !(isControlKey kv.1))).map
    (fun kv => (kv.1, sanitizeInput kv.2))

/-!
Response helpers.  The response body shapes used by the source are the empty
object (preflight), a success envelope, and an error envelope; JSON.stringify
is left at this structural level.
-/

inductive RBody where
  | emptyObj
  | ok (message : String)
  | err (error : String)
deriving DecidableEq, Repr

structure Response where
  statusCode : Nat
  headers : List (String × String)
  body : RBody
deriving DecidableEq, Repr

def corsHeaders : List (String × String) :=
  [("Content-Type", "application/json"),
   ("Access-Control-Allow-Origin", "*"),
   ("Access-Control-Allow-Headers", "Content-Type"),
   ("Access-Control-Allow-Methods", "POST, OPTIONS")]

def jsonResponse (statusCode : Nat) (body : RBody) : Response :=
  ⟨statusCode, corsHeaders, body⟩

def successResponse (message : String) : Response :=
  jsonResponse 200 (RBody.ok message)

/-- Default argument of successResponse in the source. -/
def defaultSuccessMessage : String := "Form submitted successfully"

def errorResponse (error : String) (statusCode : Nat) : Response :=
  jsonResponse statusCode (RBody.err error)

/-!
Form configurations.  onSuccess capabilities live outside the pure model and
are passed to the handler as the parameter `act`.
-/

structure FormConfig where
  requiredFields : List String
  optionalFields : List String
deriving DecidableEq, Repr

def FORM_CONFIGS : List (String × FormConfig) :=
  [("contact", ⟨["name", "email", "message"], ["phone", "company"]⟩),
   ("newsletter", ⟨["email"], ["name", "preferences"]⟩),
   ("quote", ⟨["name", "email", "service_type", "budget"],
              ["phone", "company", "details", "timeline"]⟩),
   ("callback", ⟨["name", "phone"], ["preferred_time", "notes"]⟩)]

/-- FORM_CONFIGS[form_id]: the property key is the String() coercion of the
looked-up value. -/
def getConfig (k : String) : Option FormConfig :=
  (FORM_CONFIGS.find? (fun kv => kv.1 == k)).map (fun kv => kv.2)

/-- Result of the JavaScript property access FORM_CONFIGS[key]: one of the
four configured schemas (an own property), a truthy value inherited from
Object.prototype (a function, or Object.prototype itself for the dunder proto
accessor), or undefined. -/
inductive ConfigLookup where
  | found (cfg : FormConfig)
  | inherited
  | absent
deriving DecidableEq, Repr

/-- The property names of Object.prototype, all of which FORM_CONFIGS
inherits; every one of them holds a truthy value and none has a
requiredFields property. -/
def objectProtoKeys : List String :=
  ["constructor", "hasOwnProperty", "isPrototypeOf", "propertyIsEnumerable",
   "toLocaleString", "toString", "valueOf", "__defineGetter__",
   "__defineSetter__", "__lookupGetter__", "__lookupSetter__", "__proto__"]

/-- FORM_CONFIGS[key] as JavaScript evaluates it: own properties first, then
the Object.prototype chain. -/
def configsAccess (k : String) : ConfigLookup :=
  match getConfig k with
  | some cfg => ConfigLookup.found cfg
  | none =>
    if objectProtoKeys.contains k then ConfigLookup.inherited
    else ConfigLookup.absent

/-- Object.keys(FORM_CONFIGS).join(", "). -/
def configKeysJoined : String :=
  String.intercalate ", " (FORM_CONFIGS.map (fun kv => kv.1))

/-!
The handler.  Parameters beyond the event: `now` is Date.now() at the
timestamp check, `nowIso` is the ISO rendering of the server time written into
submitted_at, and `act` is the table of onSuccess capabilities, indexed by form
identifier; `act id d` is `none` when the capability returns normally and
`some cause` when it throws or rejects.  The result carries the response
together with the argument onSuccess was invoked with, when it was invoked.
A `.error` result is an exception escaping the handler.
-/

inductive JSBody where
  | jnull
  | obj (fields : List (String × JValue))
  | other
deriving DecidableEq, Repr

deriving instance DecidableEq for Except

abbrev HandlerResult := Except String (Response × Option (List (String × JValue)))

/-- The sanitized submission built after validation: sanitized data with the
raw form_id value and the server timestamp written on top. -/
def sanitizedOf (data : List (String × JValue)) (fv : JValue) (nowIso : String) :
    List (String × JValue) :=
  setProp (setProp (sanitizeData data) "form_id" fv) "submitted_at"
    (JValue.str nowIso)

/-- Tail of the handler from required-field validation onwards (the pipeline
after both anti-spam checks pass). -/
def processValidForm (data : List (String × JValue)) (fv : JValue)
    (cfg : FormConfig) (nowIso : String)
    (act : String → List (String × JValue) → Option String) : HandlerResult :=
  if (validateRequiredFields data cfg.requiredFields).length > 0 then
    Except.ok (errorResponse (String.intercalate "; "
      (validateRequiredFields data cfg.requiredFields)) 400, none)
  else
    match act (jsToString fv) (sanitizedOf data fv nowIso) with
    | some _ =>
      Except.ok (errorResponse "Submission processing failed. Please try again." 500,
        some (sanitizedOf data fv nowIso))
    | none =>
      Except.ok (successResponse (jsToString fv ++ " form submitted successfully"),
        some (sanitizedOf data fv nowIso))

/-- Body of the handler once the method is POST and the body parsed to a JSON
object with fields `data`. -/
def handlePost (data : List (String × JValue)) (now : Int) (nowIso : String)
    (act : String → List (String × JValue) → Option String) : HandlerResult :=
  match getProp data "form_id" with
  | none => Except.ok (errorResponse "Missing form_id in request body" 400, none)
  | some fv =>
    if !(jsTruthy fv) then
      Except.ok (errorResponse "Missing form_id in request body" 400, none)
    else
      match configsAccess (jsToString fv) with
      | ConfigLookup.absent =>
        Except.ok (errorResponse ("Unknown form_id: " ++ jsToString fv ++
          ". Available forms: " ++ configKeysJoined) 400, none)
      | ConfigLookup.inherited =>
        match checkHoneypot data with
        | Except.error e => Except.error e
        | Except.ok false => Except.ok (successResponse defaultSuccessMessage, none)
        | Except.ok true =>
          if !(checkTimestamp now data) then
            Except.ok (errorResponse "Please wait a moment before submitting" 400, none)
          else
            Except.error "TypeError: undefined is not iterable"
      | ConfigLookup.found cfg =>
        match checkHoneypot data with
        | Except.error e => Except.error e
        | Except.ok false => Except.ok (successResponse defaultSuccessMessage, none)
        | Except.ok true =>
          if !(checkTimestamp now data) then
            Except.ok (errorResponse "Please wait a moment before submitting" 400, none)
          else
            processValidForm data fv cfg nowIso act

/-- The exported handler.  The JSON.parse outcome is the `body` parameter:
`none` when parsing threw, `some JSBody.jnull` when the body parsed to null
(destructuring form_id then throws a TypeError), `some JSBody.other` when it
parsed to a non-object non-null value (property reads give undefined, modelled
as the empty object), and `some (JSBody.obj fields)` for an object. -/
def handler (httpMethod : String) (body : Option JSBody) (now : Int)
    (nowIso : String)
    (act : String → List (String × JValue) → Option String) : HandlerResult :=
  if httpMethod == "OPTIONS" then
    Except.ok (jsonResponse 200 RBody.emptyObj, none)
  else if httpMethod != "POST" then
    Except.ok (errorResponse "Method not allowed. Use POST." 405, none)
  else
    match body with
    | none => Except.ok (errorResponse "Invalid JSON in request body" 400, none)
    | some JSBody.jnull =>
      Except.error "TypeError: cannot destructure property form_id of null"
    | some JSBody.other => handlePost [] now nowIso act
    | some (JSBody.obj data) => handlePost data now nowIso act

example : emailTest "x@y.com" = true := by decide
example : emailTest "bad-email" = false := by decide
example : emailTest "a@b" = false := by decide
example : emailTest "a@..b" = true := by decide
example : emailTest "a b@c.d" = false := by decide
example : phoneTest "123-456-7890" = true := by decide
example : phoneTest "12345" = false := by decide
example : jsParseInt "  123abc" = some 123 := by decide
example : jsParseInt "abc" = none := by decide
example : jsParseInt "-42" = some (-42) := by decide
example : jsTrim "  hi  " = "hi" := by decide
example : validateRequiredFields [("name", JValue.num 0)] ["name"] =
    ["Missing required field: name"] := by decide
example : validateRequiredFields
    [("form_id", JValue.str "contact"), ("email", JValue.str "bad"),
     ("message", JValue.str "hi")] ["name", "email", "message"] =
    ["Missing required field: name", "email: Invalid email format"] := by decide

/-!
Helper lemmas.
-/

theorem strDataAppend (a b : String) : (a ++ b).data = a.data ++ b.data := rfl

theorem strMkData (l : List Char) : (String.mk l).data = l := rfl

theorem strExt {a b : String} (h : a.data = b.data) : a = b := by
  cases a; cases b; exact congrArg String.mk h

theorem mem_replL {ch c : Char} {r l : List Char} (h : ch ∈ replL c r l) :
    ch ∈ r ∨ (ch ∈ l ∧ ch ≠ c) := by
  unfold replL at h
  rcases List.mem_flatMap.mp h with ⟨a, ha, hcha⟩
  by_cases hac : a == c
  · simp [hac] at hcha
    exact Or.inl hcha
  · simp [hac] at hcha
    subst hcha
    exact Or.inr ⟨ha, by simpa using hac⟩

theorem replL_eq_self {c : Char} {r l : List Char} (h : ∀ ch ∈ l, ch ≠ c) :
    replL c r l = l := by
  induction l with
  | nil => rfl
  | cons a t ih =>
    have ha : a ≠ c := h a (List.mem_cons_self a t)
    have ht : ∀ ch ∈ t, ch ≠ c := fun ch hch => h ch (List.mem_cons_of_mem a hch)
    unfold replL
    rw [List.flatMap_cons, if_neg (by simpa using ha), List.singleton_append]
    congr 1
    exact ih ht

theorem sanitizeL_no_special (l : List Char) :
    ∀ ch ∈ sanitizeL l,
      ch ≠ '<' ∧ ch ≠ '>' ∧ ch ≠ quoteChar ∧ ch ≠ apostropheChar := by
  intro ch hch
  unfold sanitizeL at hch
  rcases mem_replL hch with h4 | ⟨h4, hne4⟩
  · have h4' : ch ∈ ['&', '#', 'x', '2', '7', ';'] := h4
    simp at h4'
    rcases h4' with rfl | rfl | rfl | rfl | rfl | rfl <;> decide
  rcases mem_replL h4 with h3 | ⟨h3, hne3⟩
  · have h3' : ch ∈ ['&', 'q', 'u', 'o', 't', ';'] := h3
    simp at h3'
    rcases h3' with rfl | rfl | rfl | rfl | rfl | rfl <;> decide
  rcases mem_replL h3 with h2 | ⟨h2, hne2⟩
  · have h2' : ch ∈ ['&', 'g', 't', ';'] := h2
    simp at h2'
    rcases h2' with rfl | rfl | rfl | rfl <;> decide
  rcases mem_replL h2 with h1 | ⟨h1, hne1⟩
  · have h1' : ch ∈ ['&', 'l', 't', ';'] := h1
    simp at h1'
    rcases h1' with rfl | rfl | rfl | rfl <;> decide
  exact ⟨hne1, hne2, hne3, hne4⟩

theorem sanitizeL_idem (l : List Char) : sanitizeL (sanitizeL l) = sanitizeL l := by
  have h := sanitizeL_no_special l
  show replL apostropheChar "&#x27;".data
    (replL quoteChar "&quot;".data
      (replL '>' "&gt;".data
        (replL '<' "&lt;".data (sanitizeL l)))) = sanitizeL l
  rw [replL_eq_self (fun ch hch => (h ch hch).1),
      replL_eq_self (fun ch hch => (h ch hch).2.1),
      replL_eq_self (fun ch hch => (h ch hch).2.2.1),
      replL_eq_self (fun ch hch => (h ch hch).2.2.2)]

theorem getProp_cons_pos {a : String × JValue} {t : List (String × JValue)}
    {k : String} (h : (a.1 == k) = true) : getProp (a :: t) k = some a.2 := by
  simp [getProp, h]

theorem getProp_cons_neg {a : String × JValue} {t : List (String × JValue)}
    {k : String} (h : (a.1 == k) = false) : getProp (a :: t) k = getProp t k := by
  simp [getProp, h]

theorem getProp_map_upd_same {l : List (String × JValue)} {k : String}
    {v : JValue} (h : hasKey l k = true) :
    getProp (l.map (fun kv => if kv.1 == k then (k, v) else kv)) k = some v := by
  induction l with
  | nil => simp [hasKey] at h
  | cons a t ih =>
    rw [List.map_cons]
    by_cases hak : (a.1 == k) = true
    · rw [if_pos hak]
      exact getProp_cons_pos (by simp)
    · rw [if_neg hak]
      have ht : hasKey t k = true := by
        simpa [hasKey, hak] using h
      rw [getProp_cons_neg (by simpa using hak)]
      exact ih ht

theorem getProp_map_upd_other {l : List (String × JValue)} {k k2 : String}
    {v : JValue} (hne : k ≠ k2) :
    getProp (l.map (fun kv => if kv.1 == k2 then (k2, v) else kv)) k =
      getProp l k := by
  have hfk : ((k2 == k) : Bool) = false := by simpa using Ne.symm hne
  induction l with
  | nil => rfl
  | cons a t ih =>
    rw [List.map_cons]
    by_cases hak2 : (a.1 == k2) = true
    · have ha1 : a.1 = k2 := by simpa using hak2
      rw [if_pos hak2,
          getProp_cons_neg (show (((k2, v) : String × JValue).1 == k) = false from hfk),
          getProp_cons_neg (show ((a.1 == k) : Bool) = false by simp [ha1, hfk]),
          ih]
    · rw [if_neg hak2]
      by_cases hak : (a.1 == k) = true
      · rw [getProp_cons_pos hak, getProp_cons_pos hak]
      · rw [getProp_cons_neg (by simpa using hak),
            getProp_cons_neg (by simpa using hak), ih]

theorem getProp_append_single {l : List (String × JValue)} {k k2 : String}
    {v : JValue} (hne : k ≠ k2) : getProp (l ++ [(k2, v)]) k = getProp l k := by
  have hfk : ((k2 == k) : Bool) = false := by simpa using Ne.symm hne
  induction l with
  | nil =>
    show getProp [(k2, v)] k = none
    rw [getProp_cons_neg (by simpa using hfk)]
    rfl
  | cons a t ih =>
    rw [List.cons_append]
    by_cases hak : (a.1 == k) = true
    · rw [getProp_cons_pos hak, getProp_cons_pos hak]
    · rw [getProp_cons_neg (by simpa using hak),
          getProp_cons_neg (by simpa using hak), ih]

theorem getProp_append (l m : List (String × JValue)) (k : String)
    (h : hasKey l k = false) : getProp (l ++ m) k = getProp m k := by
  induction l with
  | nil => rfl
  | cons a t ih =>
    have h' : ¬ a.1 = k ∧ hasKey t k = false := by simpa [hasKey] using h
    rw [List.cons_append, getProp_cons_neg (by simpa using h'.1), ih h'.2]

theorem getProp_setProp_same (l : List (String × JValue)) (k : String)
    (v : JValue) : getProp (setProp l k v) k = some v := by
  unfold setProp
  by_cases hex : hasKey l k = true
  · rw [if_pos hex]
    exact getProp_map_upd_same hex
  · rw [if_neg hex]
    rw [getProp_append l _ k (by simpa using hex)]
    exact getProp_cons_pos (by simp)

theorem getProp_setProp_other (l : List (String × JValue)) (k k2 : String)
    (v : JValue) (hne : k ≠ k2) : getProp (setProp l k2 v) k = getProp l k := by
  unfold setProp
  by_cases hex : hasKey l k2 = true
  · rw [if_pos hex]
    exact getProp_map_upd_other hne
  · rw [if_neg hex]
    exact getProp_append_single hne

theorem mem_setProp {kv : String × JValue} {l : List (String × JValue)}
    {k : String} {v : JValue} (h : kv ∈ setProp l k v) :
    kv.1 = k ∨ kv ∈ l := by
  unfold setProp at h
  by_cases hex : hasKey l k = true
  · rw [if_pos hex] at h
    rcases List.mem_map.mp h with ⟨a, ha, heq⟩
    by_cases hak : (a.1 == k) = true
    · rw [if_pos hak] at heq
      subst heq
      exact Or.inl rfl
    · rw [if_neg hak] at heq
      subst heq
      exact Or.inr ha
  · rw [if_neg hex] at h
    rcases List.mem_append.mp h with hl | hr
    · exact Or.inr hl
    · simp at hr
      subst hr
      exact Or.inl rfl

theorem mem_sanitizeData {kv : String × JValue} {data : List (String × JValue)}
    (h : kv ∈ sanitizeData data) : isControlKey kv.1 = false := by
  unfold sanitizeData at h
  rcases List.mem_map.mp h with ⟨a, ha, heq⟩
  have hf := (List.mem_filter.mp ha).2
  subst heq
  simpa using hf

theorem validateRequiredFields_eq_flatMap (data : List (String × JValue))
    (req : List String) :
    validateRequiredFields data req = req.flatMap (fieldCheck data) := by
  unfold validateRequiredFields
  suffices hgen : ∀ (acc : List String),
      req.foldl (fun errors field => errors ++ fieldCheck data field) acc =
        acc ++ req.flatMap (fieldCheck data) by
    simpa using hgen []
  induction req with
  | nil => intro acc; simp
  | cons f t ih =>
    intro acc
    rw [List.foldl_cons, ih, List.flatMap_cons, List.append_assoc]

theorem handler_post_obj (data : List (String × JValue)) (now : Int)
    (nowIso : String) (act : String → List (String × JValue) → Option String) :
    handler "POST" (some (JSBody.obj data)) now nowIso act =
      handlePost data now nowIso act := rfl

theorem configsAccess_found {k : String} {cfg : FormConfig}
    (h : getConfig k = some cfg) : configsAccess k = ConfigLookup.found cfg := by
  unfold configsAccess
  rw [h]

theorem getConfig_of_found {k : String} {cfg : FormConfig}
    (h : configsAccess k = ConfigLookup.found cfg) : getConfig k = some cfg := by
  unfold configsAccess at h
  split at h
  next c heq =>
    injection h with h2
    subst h2
    exact heq
  next heq =>
    split at h <;> simp at h

theorem handlePost_resolved {data : List (String × JValue)} {fv : JValue}
    {cfg : FormConfig} (now : Int) (nowIso : String)
    (act : String → List (String × JValue) → Option String)
    (hfv : getProp data "form_id" = some fv) (htru : jsTruthy fv = true)
    (hcfg : getConfig (jsToString fv) = some cfg)
    (hhp : checkHoneypot data = Except.ok true)
    (hts : checkTimestamp now data = true) :
    handlePost data now nowIso act = processValidForm data fv cfg nowIso act := by
  unfold handlePost
  rw [hfv]
  simp [htru, configsAccess_found hcfg, hhp, hts]

/-- Claim C1: the spec requires every HTTP event, including bodies parsing to
null and submissions with a non-string honeypot value, to produce a well-formed
response envelope with no uncaught exception.  The code violates this: both a
numeric honeypot field and a null body make the handler throw a TypeError. -/
theorem claim_C1 :
    handler "POST" (some (JSBody.obj [("form_id", JValue.str "contact"),
        ("_honey", JValue.num 1)])) 0 "t" (fun _ _ => none) =
      Except.error "TypeError: data._honey.trim is not a function" ∧
    handler "POST" (some JSBody.jnull) 0 "t" (fun _ _ => none) =
      Except.error "TypeError: cannot destructure property form_id of null" := by
  exact ⟨by decide, by decide⟩

/-- Claim C7: sanitizeInput is idempotent on every value, and sanitizing the
input string of the word script in angle brackets once or twice gives the
singly-escaped form with no double-escaping artifacts. -/
theorem claim_C7 :
    (∀ v : JValue, sanitizeInput (sanitizeInput v) = sanitizeInput v) ∧
    sanitizeInput (JValue.str "<script>") = JValue.str "&lt;script&gt;" ∧
    sanitizeInput (sanitizeInput (JValue.str "<script>")) =
      JValue.str "&lt;script&gt;" := by
  refine ⟨?_, by decide, by decide⟩
  intro v
  cases v with
  | str s =>
    show JValue.str ⟨sanitizeL (String.mk (sanitizeL s.data)).data⟩ =
      JValue.str ⟨sanitizeL s.data⟩
    rw [strMkData, sanitizeL_idem]
  | num n => rfl
  | bool b => rfl
  | null => rfl

/-- Claim C10: when the timestamp field is present but its value does not parse
as an integer, the timestamp check passes and the handler proceeds to field
validation. -/
theorem claim_C10 (data : List (String × JValue)) (now : Int) (v : JValue)
    (hts : getProp data "_timestamp" = some v)
    (hparse : jsParseInt (jsToString v) = none) :
    checkTimestamp now data = true ∧
    (∀ (fv : JValue) (cfg : FormConfig) (nowIso : String)
      (act : String → List (String × JValue) → Option String),
      getProp data "form_id" = some fv → jsTruthy fv = true →
      getConfig (jsToString fv) = some cfg →
      checkHoneypot data = Except.ok true →
      handler "POST" (some (JSBody.obj data)) now nowIso act =
        processValidForm data fv cfg nowIso act) := by
  have h1 : checkTimestamp now data = true := by
    unfold checkTimestamp
    rw [hts]
    cases hjt : jsTruthy v <;> simp [hjt, hparse]
  refine ⟨h1, ?_⟩
  intro fv cfg nowIso act hfv htru hcfg hhp
  rw [handler_post_obj]
  exact handlePost_resolved now nowIso act hfv htru hcfg hhp h1

/-- Witness for claim C10 at a concrete event with a non-numeric timestamp. -/
theorem claim_C10_witness :
    checkTimestamp 1000 [("form_id", JValue.str "newsletter"),
      ("email", JValue.str "x@y.com"), ("_timestamp", JValue.str "abc")] = true ∧
    handler "POST" (some (JSBody.obj [("form_id", JValue.str "newsletter"),
        ("email", JValue.str "x@y.com"), ("_timestamp", JValue.str "abc")]))
        1000 "t" (fun _ _ => none) =
      processValidForm [("form_id", JValue.str "newsletter"),
        ("email", JValue.str "x@y.com"), ("_timestamp", JValue.str "abc")]
        (JValue.str "newsletter") ⟨["email"], ["name", "preferences"]⟩ "t"
        (fun _ _ => none) := by
  have h := claim_C10 [("form_id", JValue.str "newsletter"),
    ("email", JValue.str "x@y.com"), ("_timestamp", JValue.str "abc")]
    1000 (JValue.str "abc") (by decide) (by decide)
  exact ⟨h.1, h.2 (JValue.str "newsletter") ⟨["email"], ["name", "preferences"]⟩
    "t" (fun _ _ => none) (by decide) (by decide) (by decide) (by decide)⟩

/-- Substring containment, as a statement that the message mentions a form
identifier. -/
def strContains (hay pat : String) : Prop := pat.data <:+: hay.data

/-- Claim C2 counterexample: a POST to the configured newsletter form whose
honeypot field holds the non-empty string of one space returns a success
response, yet the onSuccess capability IS invoked (the result records the
invocation argument), contradicting the claim that a non-empty honeypot always
suppresses the success action. -/
theorem claim_C2_counterexample :
    handler "POST" (some (JSBody.obj [("form_id", JValue.str "newsletter"),
        ("email", JValue.str "x@y.com"), ("_honey", JValue.str " ")])) 0 "t"
        (fun _ _ => none) =
      Except.ok (successResponse "newsletter form submitted successfully",
        some [("form_id", JValue.str "newsletter"),
              ("email", JValue.str "x@y.com"),
              ("submitted_at", JValue.str "t")]) := by decide

/-- Claim C2 as amended: for a POST to a configured form whose honeypot field
is a string that is non-empty after trimming whitespace, the handler returns
the default 200 success response and the onSuccess capability is never
invoked. -/
theorem claim_C2 (data : List (String × JValue)) (now : Int) (nowIso : String)
    (act : String → List (String × JValue) → Option String) (fv : JValue)
    (cfg : FormConfig) (h : String)
    (hfv : getProp data "form_id" = some fv) (htru : jsTruthy fv = true)
    (hcfg : getConfig (jsToString fv) = some cfg)
    (hh : getProp data "_honey" = some (JValue.str h))
    (hne : jsTrim h ≠ "") :
    handler "POST" (some (JSBody.obj data)) now nowIso act =
      Except.ok (successResponse defaultSuccessMessage, none) := by
  have hnonempty : h ≠ "" := by
    intro he
    subst he
    exact hne rfl
  have hhp : checkHoneypot data = Except.ok false := by
    unfold checkHoneypot
    rw [hh]
    have htrS : jsTruthy (JValue.str h) = true := by
      simp [jsTruthy, hnonempty]
    simp [htrS, hne]
  rw [handler_post_obj]
  unfold handlePost
  rw [hfv]
  simp [htru, configsAccess_found hcfg, hhp]

/-- Witness for claim C2 as amended, at a concrete spam submission. -/
theorem claim_C2_witness :
    handler "POST" (some (JSBody.obj [("form_id", JValue.str "newsletter"),
        ("email", JValue.str "x@y.com"), ("_honey", JValue.str " x ")])) 0 "t"
        (fun _ _ => none) =
      Except.ok (successResponse defaultSuccessMessage, none) :=
  claim_C2 [("form_id", JValue.str "newsletter"),
      ("email", JValue.str "x@y.com"), ("_honey", JValue.str " x ")] 0 "t"
    (fun _ _ => none) (JValue.str "newsletter") ⟨["email"], ["name", "preferences"]⟩
    " x " (by decide) (by decide) (by decide) (by decide) (by decide)

/-- Claim C3: a POST to a configured form that passes the honeypot check and
carries a timestamp value denoting an instant less than 2000 milliseconds
before the server time gets the 400 wait error, and the onSuccess capability is
never invoked. -/
theorem claim_C3 (data : List (String × JValue)) (now : Int) (nowIso : String)
    (act : String → List (String × JValue) → Option String) (fv tv : JValue)
    (cfg : FormConfig) (t : Int)
    (hfv : getProp data "form_id" = some fv) (htru : jsTruthy fv = true)
    (hcfg : getConfig (jsToString fv) = some cfg)
    (hhp : checkHoneypot data = Except.ok true)
    (hts : getProp data "_timestamp" = some tv) (htv : jsTruthy tv = true)
    (hp : jsParseInt (jsToString tv) = some t) (hlt : now - t < 2000) :
    handler "POST" (some (JSBody.obj data)) now nowIso act =
      Except.ok (errorResponse "Please wait a moment before submitting" 400,
        none) := by
  have hc : checkTimestamp now data = false := by
    unfold checkTimestamp
    rw [hts]
    simp [htv, hp, hlt]
  rw [handler_post_obj]
  unfold handlePost
  rw [hfv]
  simp [htru, configsAccess_found hcfg, hhp, hc]

/-- Witness for claim C3 at a concrete too-fast submission. -/
theorem claim_C3_witness :
    handler "POST" (some (JSBody.obj [("form_id", JValue.str "newsletter"),
        ("email", JValue.str "x@y.com"), ("_timestamp", JValue.str "100")]))
        1000 "t" (fun _ _ => none) =
      Except.ok (errorResponse "Please wait a moment before submitting" 400,
        none) :=
  claim_C3 [("form_id", JValue.str "newsletter"),
      ("email", JValue.str "x@y.com"), ("_timestamp", JValue.str "100")]
    1000 "t" (fun _ _ => none) (JValue.str "newsletter") (JValue.str "100")
    ⟨["email"], ["name", "preferences"]⟩ 100 (by decide) (by decide) (by decide)
    (by decide) (by decide) (by decide) (by decide) (by decide)

/-- Claim C5 counterexample: the claim fails twice on the code.  A POST body
with no form identifier gets the fixed message Missing form_id in request
body, which does not mention the configured identifier contact; and the
unknown identifier toString, which names an inherited Object.prototype
property, makes the handler throw an uncaught TypeError instead of returning
any 400 error. -/
theorem claim_C5_counterexample :
    (handler "POST" (some (JSBody.obj [])) 0 "t" (fun _ _ => none) =
      Except.ok (errorResponse "Missing form_id in request body" 400, none) ∧
    ¬ strContains "Missing form_id in request body" "contact") ∧
    handler "POST" (some (JSBody.obj [("form_id", JValue.str "toString")])) 0
        "t" (fun _ _ => none) =
      Except.error "TypeError: undefined is not iterable" := by
  refine ⟨⟨by decide, ?_⟩, by decide⟩
  unfold strContains
  decide

/-- Claim C5 as amended: a missing (absent or falsy) form identifier gets a
400 error with the fixed message Missing form_id in request body; a truthy
identifier that is neither a configured form nor an Object.prototype property
name gets a 400 error whose message enumerates all configured form
identifiers; a truthy identifier naming an inherited Object.prototype property
passes the configuration guard and, once the anti-spam checks pass, the
handler throws an uncaught TypeError instead of returning an envelope. -/
theorem claim_C5 (data : List (String × JValue)) (now : Int) (nowIso : String)
    (act : String → List (String × JValue) → Option String) :
    (jsTruthyO (getProp data "form_id") = false →
      handler "POST" (some (JSBody.obj data)) now nowIso act =
        Except.ok (errorResponse "Missing form_id in request body" 400, none)) ∧
    (∀ fv : JValue, getProp data "form_id" = some fv → jsTruthy fv = true →
      configsAccess (jsToString fv) = ConfigLookup.absent →
      handler "POST" (some (JSBody.obj data)) now nowIso act =
        Except.ok (errorResponse ("Unknown form_id: " ++ jsToString fv ++
          ". Available forms: " ++ configKeysJoined) 400, none) ∧
      ∀ k ∈ FORM_CONFIGS.map (fun kv => kv.1),
        strContains ("Unknown form_id: " ++ jsToString fv ++
          ". Available forms: " ++ configKeysJoined) k) ∧
    (∀ fv : JValue, getProp data "form_id" = some fv → jsTruthy fv = true →
      configsAccess (jsToString fv) = ConfigLookup.inherited →
      checkHoneypot data = Except.ok true → checkTimestamp now data = true →
      handler "POST" (some (JSBody.obj data)) now nowIso act =
        Except.error "TypeError: undefined is not iterable") := by
  refine ⟨?_, ?_, ?_⟩
  · intro hmiss
    rw [handler_post_obj]
    unfold handlePost
    cases hfv : getProp data "form_id" with
    | none => rfl
    | some fv =>
      rw [hfv] at hmiss
      have hmiss2 : jsTruthy fv = false := by simpa [jsTruthyO] using hmiss
      simp [hmiss2]
  · intro fv hfv htru hacc
    constructor
    · rw [handler_post_obj]
      unfold handlePost
      rw [hfv]
      simp [htru, hacc]
    · intro k hk
      have hj : k.data <:+: configKeysJoined.data := by
        fin_cases hk <;> decide
      unfold strContains
      rw [strDataAppend]
      exact hj.trans (List.suffix_append _ _).isInfix
  · intro fv hfv htru hacc hhp hts
    rw [handler_post_obj]
    unfold handlePost
    rw [hfv]
    simp [htru, hacc, hhp, hts]

/-- Witness for claim C5 as amended, at a concrete empty body, a concrete
unknown identifier, and the concrete inherited-property identifier
toString. -/
theorem claim_C5_witness :
    handler "POST" (some (JSBody.obj [])) 0 "t" (fun _ _ => none) =
      Except.ok (errorResponse "Missing form_id in request body" 400, none) ∧
    (handler "POST" (some (JSBody.obj [("form_id", JValue.str "bogus")])) 0 "t"
        (fun _ _ => none) =
      Except.ok (errorResponse ("Unknown form_id: " ++ "bogus" ++
        ". Available forms: " ++ configKeysJoined) 400, none) ∧
      ∀ k ∈ FORM_CONFIGS.map (fun kv => kv.1),
        strContains ("Unknown form_id: " ++ "bogus" ++
          ". Available forms: " ++ configKeysJoined) k) ∧
    handler "POST" (some (JSBody.obj [("form_id", JValue.str "toString")])) 0
        "t" (fun _ _ => none) =
      Except.error "TypeError: undefined is not iterable" := by
  refine ⟨?_, ?_, ?_⟩
  · exact (claim_C5 [] 0 "t" (fun _ _ => none)).1 (by decide)
  · exact (claim_C5 [("form_id", JValue.str "bogus")] 0 "t"
      (fun _ _ => none)).2.1 (JValue.str "bogus") (by decide) (by decide)
      (by decide)
  · exact (claim_C5 [("form_id", JValue.str "toString")] 0 "t"
      (fun _ _ => none)).2.2 (JValue.str "toString") (by decide) (by decide)
      (by decide) (by decide) (by decide)

/-- Claim C8: when the pipeline reaches the success action and the onSuccess
capability throws or rejects, the handler returns a 500 error with the fixed
generic message; the underlying cause does not occur in the response, which is
the same for every cause. -/
theorem claim_C8 (data : List (String × JValue)) (now : Int) (nowIso : String)
    (act : String → List (String × JValue) → Option String) (fv : JValue)
    (cfg : FormConfig) (e : String)
    (hfv : getProp data "form_id" = some fv) (htru : jsTruthy fv = true)
    (hcfg : getConfig (jsToString fv) = some cfg)
    (hhp : checkHoneypot data = Except.ok true)
    (hts : checkTimestamp now data = true)
    (hval : validateRequiredFields data cfg.requiredFields = [])
    (hact : act (jsToString fv) (sanitizedOf data fv nowIso) = some e) :
    handler "POST" (some (JSBody.obj data)) now nowIso act =
      Except.ok (errorResponse
        "Submission processing failed. Please try again." 500,
        some (sanitizedOf data fv nowIso)) := by
  rw [handler_post_obj, handlePost_resolved now nowIso act hfv htru hcfg hhp hts]
  unfold processValidForm
  simp [hval, hact]

/-- Witness for claim C8 at a concrete submission whose capability throws. -/
theorem claim_C8_witness :
    handler "POST" (some (JSBody.obj [("form_id", JValue.str "newsletter"),
        ("email", JValue.str "x@y.com")])) 0 "t" (fun _ _ => some "boom") =
      Except.ok (errorResponse
        "Submission processing failed. Please try again." 500,
        some (sanitizedOf [("form_id", JValue.str "newsletter"),
          ("email", JValue.str "x@y.com")] (JValue.str "newsletter") "t")) :=
  claim_C8 [("form_id", JValue.str "newsletter"), ("email", JValue.str "x@y.com")]
    0 "t" (fun _ _ => some "boom") (JValue.str "newsletter")
    ⟨["email"], ["name", "preferences"]⟩ "boom" (by decide) (by decide)
    (by decide) (by decide) (by decide) (by decide) (by decide)

/-!
Claim C4 material: the characterization of a missing required field.
-/

/-- The values the source reports as missing: falsy values (absent, empty
string, zero, false, null) together with strings that trim to empty. -/
def isMissingVal : Option JValue → Bool
  | none => true
  | some (JValue.str s) => jsTrim s == ""
  | some (JValue.num n) => n == 0
  | some (JValue.bool b) => !b
  | some JValue.null => true

theorem missing_cond_eq (v : JValue) :
    jsMissingCond v = isMissingVal (some v) := by
  cases v with
  | str s =>
    by_cases hs : s = ""
    · subst hs
      rfl
    · simp [jsMissingCond, jsTruthy, isMissingVal, hs]
  | num n => simp [jsMissingCond, jsTruthy, isMissingVal, bne]
  | bool b => cases b <;> rfl
  | null => rfl

theorem strAppendCancelLeft {a b c : String} (h : a ++ b = a ++ c) : b = c := by
  have hd : a.data ++ b.data = a.data ++ c.data := by
    have h1 : (a ++ b).data = (a ++ c).data := by rw [h]
    simpa using h1
  exact strExt (List.append_cancel_left hd)

theorem missingNeEmailMsg (f : String) :
    ("Missing required field: " ++ f) ≠ "email: Invalid email format" := by
  intro h
  have h2 : ("Missing required field: " ++ f).data.head? =
      ("email: Invalid email format" : String).data.head? := by rw [h]
  rw [show ("Missing required field: " ++ f).data.head? = some 'M' from rfl,
      show ("email: Invalid email format" : String).data.head? = some 'e'
        from rfl] at h2
  exact absurd h2 (by decide)

theorem missingNePhoneMsg (f : String) :
    ("Missing required field: " ++ f) ≠ "phone: Invalid phone format" := by
  intro h
  have h2 : ("Missing required field: " ++ f).data.head? =
      ("phone: Invalid phone format" : String).data.head? := by rw [h]
  rw [show ("Missing required field: " ++ f).data.head? = some 'M' from rfl,
      show ("phone: Invalid phone format" : String).data.head? = some 'p'
        from rfl] at h2
  exact absurd h2 (by decide)

theorem validateField_inv {g : String} {v : JValue} {e : String}
    (h : validateField g v = some e) :
    (g = "email" ∧ e = "Invalid email format") ∨
    (g = "phone" ∧ e = "Invalid phone format") := by
  unfold validateField at h
  by_cases hg : (g == "email") = true
  · left
    refine ⟨by simpa using hg, ?_⟩
    rw [if_pos hg] at h
    unfold emailValidator at h
    by_cases he : emailTest (jsToString v) = true
    · rw [if_pos he] at h
      cases h
    · rw [if_neg he] at h
      exact (Option.some.inj h).symm
  · rw [if_neg hg] at h
    by_cases hp : (g == "phone") = true
    · right
      refine ⟨by simpa using hp, ?_⟩
      rw [if_pos hp] at h
      unfold phoneValidator at h
      by_cases ht : jsTruthy v = true
      · rw [if_neg (by simp [ht])] at h
        by_cases hph : phoneTest (jsToString v) = true
        · rw [if_pos hph] at h
          cases h
        · rw [if_neg hph] at h
          exact (Option.some.inj h).symm
      · have ht2 : jsTruthy v = false := by simpa using ht
        rw [if_pos (by simp [ht2])] at h
        cases h
    · rw [if_neg hp] at h
      cases h

theorem validatorMsgNeMissing {f g : String} {v : JValue} {e : String}
    (h : validateField g v = some e) :
    ("Missing required field: " ++ f) ≠ (g ++ ": " ++ e) := by
  rcases validateField_inv h with ⟨rfl, rfl⟩ | ⟨rfl, rfl⟩
  · exact missingNeEmailMsg f
  · exact missingNePhoneMsg f

theorem missing_mem_fieldCheck (data : List (String × JValue)) (f g : String) :
    (("Missing required field: " ++ f) ∈ fieldCheck data g) ↔
    (g = f ∧ isMissingVal (getProp data g) = true) := by
  unfold fieldCheck
  cases hv : getProp data g with
  | none =>
    constructor
    · intro h
      have h1 : "Missing required field: " ++ f =
          "Missing required field: " ++ g := List.mem_singleton.mp h
      exact ⟨(strAppendCancelLeft h1).symm, rfl⟩
    · rintro ⟨rfl, _⟩
      exact List.mem_singleton.mpr rfl
  | some v =>
    show ("Missing required field: " ++ f ∈
        (if jsMissingCond v = true then ["Missing required field: " ++ g]
         else match validateField g v with
           | some e => [g ++ ": " ++ e]
           | none => [])) ↔ (g = f ∧ isMissingVal (some v) = true)
    rw [missing_cond_eq v]
    by_cases hm : isMissingVal (some v) = true
    · rw [if_pos hm]
      simp only [List.mem_singleton]
      constructor
      · intro h
        exact ⟨(strAppendCancelLeft h).symm, hm⟩
      · rintro ⟨rfl, _⟩
        rfl
    · rw [if_neg hm]
      constructor
      · intro h
        exfalso
        cases hvf : validateField g v with
        | none => rw [hvf] at h; cases h
        | some e =>
          rw [hvf] at h
          rcases List.mem_singleton.mp h with h2
          exact validatorMsgNeMissing hvf h2
      · rintro ⟨rfl, hmm⟩
        exact absurd hmm hm

/-- Claim C4 counterexample: a required field holding the number 0, and one
holding the boolean false, ARE reported missing by the code, contradicting the
claim that such present values are not reported missing but passed to the
field validators. -/
theorem claim_C4_counterexample :
    validateRequiredFields [("name", JValue.num 0)] ["name"] =
      ["Missing required field: name"] ∧
    validateRequiredFields [("name", JValue.bool false)] ["name"] =
      ["Missing required field: name"] := by
  exact ⟨by decide, by decide⟩

/-- Claim C4 as amended: required-field validation reports the missing-field
message for a field exactly when the field is required and its value is falsy
(absent, empty string, the number 0, the boolean false, or null) or a string
that is empty after trimming whitespace; when the value is not missing the
field contributes exactly the messages of its field validator. -/
theorem claim_C4 (data : List (String × JValue)) (req : List String)
    (field : String) :
    ((("Missing required field: " ++ field) ∈ validateRequiredFields data req) ↔
      (field ∈ req ∧ isMissingVal (getProp data field) = true)) ∧
    (isMissingVal (getProp data field) = false →
      ∃ v, getProp data field = some v ∧
        fieldCheck data field = (match validateField field v with
          | some e => [field ++ ": " ++ e]
          | none => [])) := by
  constructor
  · rw [validateRequiredFields_eq_flatMap, List.mem_flatMap]
    constructor
    · rintro ⟨g, hg, hmem⟩
      rcases (missing_mem_fieldCheck data field g).mp hmem with ⟨rfl, hmv⟩
      exact ⟨hg, hmv⟩
    · rintro ⟨hf, hmv⟩
      exact ⟨field, hf, (missing_mem_fieldCheck data field field).mpr ⟨rfl, hmv⟩⟩
  · intro hnm
    cases hv : getProp data field with
    | none => rw [hv] at hnm; cases hnm
    | some v =>
      refine ⟨v, rfl, ?_⟩
      rw [hv] at hnm
      unfold fieldCheck
      rw [hv]
      show (if jsMissingCond v = true then ["Missing required field: " ++ field]
            else match validateField field v with
              | some e => [field ++ ": " ++ e]
              | none => []) =
        (match validateField field v with
          | some e => [field ++ ": " ++ e]
          | none => [])
      rw [missing_cond_eq v, if_neg (by simp [hnm])]

/-- Witness for claim C4 as amended, at a concrete submission with an invalid
email value: the email field is not missing (right side of the iff is false,
matching absence of the missing message) and contributes the validator
message. -/
theorem claim_C4_witness :
    ((("Missing required field: " ++ "email") ∈ validateRequiredFields
        [("email", JValue.str "bad")] ["email"]) ↔
      ("email" ∈ ["email"] ∧
        isMissingVal (getProp [("email", JValue.str "bad")] "email") = true)) ∧
    (∃ v, getProp [("email", JValue.str "bad")] "email" = some v ∧
      fieldCheck [("email", JValue.str "bad")] "email" =
        (match validateField "email" v with
          | some e => ["email" ++ ": " ++ e]
          | none => [])) := by
  have h := claim_C4 [("email", JValue.str "bad")] ["email"] "email"
  exact ⟨h.1, h.2 (by decide)⟩

theorem sanitizedOf_no_control (data : List (String × JValue)) (fv : JValue)
    (nowIso : String) :
    ∀ kv ∈ sanitizedOf data fv nowIso, isControlKey kv.1 = false := by
  intro kv hkv
  unfold sanitizedOf at hkv
  rcases mem_setProp hkv with h1 | h2
  · rw [h1]
    decide
  · rcases mem_setProp h2 with h3 | h4
    · rw [h3]
      decide
    · exact mem_sanitizeData h4

theorem sanitizedOf_form_id (data : List (String × JValue)) (fv : JValue)
    (nowIso : String) :
    getProp (sanitizedOf data fv nowIso) "form_id" = some fv := by
  unfold sanitizedOf
  rw [getProp_setProp_other _ _ _ _ (by decide), getProp_setProp_same]

/-- Claim C6: validation collects every required field's messages in
declaration order (the error list is the concatenation, over the required
fields in order, of each field's contribution), and when any errors were
collected the handler returns them joined with a semicolon separator in a
single 400 error, without invoking the success action. -/
theorem claim_C6 (data : List (String × JValue)) (req : List String)
    (now : Int) (nowIso : String)
    (act : String → List (String × JValue) → Option String) (fv : JValue)
    (cfg : FormConfig) :
    validateRequiredFields data req = req.flatMap (fieldCheck data) ∧
    (getProp data "form_id" = some fv → jsTruthy fv = true →
      getConfig (jsToString fv) = some cfg →
      checkHoneypot data = Except.ok true →
      checkTimestamp now data = true →
      validateRequiredFields data cfg.requiredFields ≠ [] →
      handler "POST" (some (JSBody.obj data)) now nowIso act =
        Except.ok (errorResponse (String.intercalate "; "
          (validateRequiredFields data cfg.requiredFields)) 400, none)) := by
  refine ⟨validateRequiredFields_eq_flatMap data req, ?_⟩
  intro hfv htru hcfg hhp hts herr
  rw [handler_post_obj, handlePost_resolved now nowIso act hfv htru hcfg hhp hts]
  unfold processValidForm
  rw [if_pos (by simpa using List.length_pos.mpr herr)]

/-- Witness for claim C6 at a concrete contact submission with two violations:
a missing name and an invalid email. -/
theorem claim_C6_witness :
    validateRequiredFields
        [("form_id", JValue.str "contact"), ("email", JValue.str "bad"),
         ("message", JValue.str "hi")] ["name", "email", "message"] =
      (["name", "email", "message"] : List String).flatMap
        (fieldCheck [("form_id", JValue.str "contact"),
          ("email", JValue.str "bad"), ("message", JValue.str "hi")]) ∧
    handler "POST" (some (JSBody.obj [("form_id", JValue.str "contact"),
        ("email", JValue.str "bad"), ("message", JValue.str "hi")])) 0 "t"
        (fun _ _ => none) =
      Except.ok (errorResponse (String.intercalate "; "
        (validateRequiredFields [("form_id", JValue.str "contact"),
          ("email", JValue.str "bad"), ("message", JValue.str "hi")]
          ["name", "email", "message"])) 400, none) := by
  have h := claim_C6 [("form_id", JValue.str "contact"),
    ("email", JValue.str "bad"), ("message", JValue.str "hi")]
    ["name", "email", "message"] 0 "t" (fun _ _ => none)
    (JValue.str "contact") ⟨["name", "email", "message"], ["phone", "company"]⟩
  exact ⟨h.1, h.2 (by decide) (by decide) (by decide) (by decide) (by decide)
    (by decide)⟩

/-- Claim C9: whenever the handler invokes the success action, the submission
passed to it contains no key beginning with the underscore sentinel, and its
form_id field holds exactly the raw form identifier value under which a schema
was resolved for the request. -/
theorem claim_C9 (data : List (String × JValue)) (now : Int) (nowIso : String)
    (act : String → List (String × JValue) → Option String) (r : Response)
    (d : List (String × JValue))
    (h : handler "POST" (some (JSBody.obj data)) now nowIso act =
      Except.ok (r, some d)) :
    (∀ kv ∈ d, isControlKey kv.1 = false) ∧
    ∃ fv, getProp data "form_id" = some fv ∧
      (getConfig (jsToString fv)).isSome = true ∧
      getProp d "form_id" = some fv := by
  rw [handler_post_obj] at h
  unfold handlePost at h
  split at h
  · simp at h
  next fv hfv =>
    split at h
    · simp at h
    next htru =>
      split at h
      · simp at h
      · split at h
        · simp at h
        · simp at h
        · split at h
          · simp at h
          · simp at h
      next cfg hacc =>
        split at h
        · simp at h
        · simp at h
        next hhp =>
          split at h
          · simp at h
          next hts =>
            unfold processValidForm at h
            split at h
            · simp at h
            next herr =>
              split at h
              next e hact =>
                simp only [Except.ok.injEq, Prod.mk.injEq,
                  Option.some.injEq] at h
                obtain ⟨hr, hd⟩ := h
                subst hd
                exact ⟨sanitizedOf_no_control data fv nowIso,
                  fv, hfv, by rw [getConfig_of_found hacc]; rfl,
                  sanitizedOf_form_id data fv nowIso⟩
              next hact =>
                simp only [Except.ok.injEq, Prod.mk.injEq,
                  Option.some.injEq] at h
                obtain ⟨hr, hd⟩ := h
                subst hd
                exact ⟨sanitizedOf_no_control data fv nowIso,
                  fv, hfv, by rw [getConfig_of_found hacc]; rfl,
                  sanitizedOf_form_id data fv nowIso⟩

/-- Witness for claim C9 at a concrete successful newsletter submission. -/
theorem claim_C9_witness :
    (∀ kv ∈ [("form_id", JValue.str "newsletter"),
        ("email", JValue.str "x@y.com"), ("submitted_at", JValue.str "t")],
      isControlKey (kv : String × JValue).1 = false) ∧
    ∃ fv, getProp [("form_id", JValue.str "newsletter"),
        ("email", JValue.str "x@y.com"), ("_honey", JValue.str "")] "form_id" =
        some fv ∧
      (getConfig (jsToString fv)).isSome = true ∧
      getProp [("form_id", JValue.str "newsletter"),
        ("email", JValue.str "x@y.com"), ("submitted_at", JValue.str "t")]
        "form_id" = some fv :=
  claim_C9 [("form_id", JValue.str "newsletter"),
      ("email", JValue.str "x@y.com"), ("_honey", JValue.str "")] 0 "t"
    (fun _ _ => none)
    (successResponse "newsletter form submitted successfully")
    [("form_id", JValue.str "newsletter"), ("email", JValue.str "x@y.com"),
     ("submitted_at", JValue.str "t")] (by decide)
